import Mathlib

/-!
# Verification of BinGoggles variable-flow analysis (src/bingoggles/vfa.py)

A shallow embedding of the taint-analysis core of `bingoggles/vfa.py`
(class `Analysis`): the call-site extractor `get_sliced_calls`, the
slicing entry points `tainted_slice` / `complete_slice` (their memoization,
struct-member shape dispatch, function-parameter handling and
imported-function guard), and the parameter/return taint resolver
`is_function_param_tainted` (its per-instruction pass, recursion guard and
`walk_variable` closure).

Modelling conventions:
* SSA variables are identified by `Nat`; function and parameter names by
  `String`.
* Python sets are modelled as lists of their elements (all properties
  proved are membership facts, insensitive to order and duplicates).
* Python dicts keyed by insertion order are association lists.
* A Python function that can raise is embedded in `Except String`;
  a fallible lookup returns `Option`.
* The Binary Ninja IR layer (an external collaborator of the source) enters
  only through the data the source actually reads from it: operation kinds,
  operand variables, textual form of call destinations, address→function
  resolution.
-/

namespace BinGogglesVFA

/-- An SSA variable (Binary Ninja `SSAVariable`), identified by a number. -/
abbrev Var := Nat

/-- `bingoggles_types.TaintConfidence` as used by vfa.py: a binary
confidence tag on a taint marking. -/
inductive TaintConfidence
  | NotTainted
  | Tainted
deriving DecidableEq

/-- The tainted-value variants vfa.py builds during the
`is_function_param_tainted` pass (`TaintedVar` and `TaintedAddressOfField`).
Every variant carries the underlying variable (the source reads it as
`tv.variable`), a confidence level and the location address.  The
`TaintedAddressOfField` offset payload (offset constant and offset-variable
record, vfa.py lines 783-809) is elided to the flag recording whether the
offset variable was found among the mapping keys; no claim depends on it. -/
inductive TaintedValue
  | taintedVar (v : Var) (confidence : TaintConfidence) (loc_address : Nat)
  | taintedAddressOfField (v : Var) (offset_hit : Bool) (loc_address : Nat)
deriving DecidableEq

/-- The `.variable` attribute the source reads on every tainted-value variant. -/
def TaintedValue.var : TaintedValue → Var
  | .taintedVar v _ _ => v
  | .taintedAddressOfField v _ _ => v

/-- The `.confidence_level` attribute.  A `TaintedAddressOfField` is always
created with `TaintConfidence.Tainted` at the outer value (vfa.py 788, 805). -/
def TaintedValue.confidence_level : TaintedValue → TaintConfidence
  | .taintedVar _ c _ => c
  | .taintedAddressOfField _ _ _ => TaintConfidence.Tainted

/-- The MLIL operation kinds vfa.py dispatches on (`MediumLevelILOperation`).
`MLIL_VAR_ALIASED_FIELD` is an aliased-variable field extraction: an MLIL
source operation that carries a field offset but is not one of the two
operations the struct-member dispatch recognizes. `MLIL_OTHER` stands for
every operation the source never names. -/
inductive MediumLevelILOperation
  | MLIL_CALL
  | MLIL_SET_VAR
  | MLIL_LOAD_STRUCT
  | MLIL_VAR_FIELD
  | MLIL_VAR_ALIASED_FIELD
  | MLIL_STORE_SSA
  | MLIL_SET_VAR_SSA
  | MLIL_CALL_SSA
  | MLIL_SET_VAR_SSA_FIELD
  | MLIL_RET
  | MLIL_GOTO
  | MLIL_IF
  | MLIL_VAR
  | MLIL_CONST_PTR
  | MLIL_OTHER
deriving DecidableEq

/-- The HLIL operation kinds the struct-member branch of `tainted_slice`
dispatches on (`HighLevelILOperation`). -/
inductive HighLevelILOperation
  | HLIL_ASSIGN
  | HLIL_DEREF_FIELD
  | HLIL_VAR
  | HLIL_VAR_INIT
  | HLIL_OTHER
deriving DecidableEq

/-- What `addr_to_func` resolution yields about a function: its name, start
address and ordered parameter names (`parameter_vars`). -/
structure FuncInfo where
  name : String
  start : Nat
  parameter_vars : List String
deriving DecidableEq

/-- `InterprocTaintResult` as consumed by the recursive call inside
`is_function_param_tainted` (vfa.py 866-890): the callee's tainted parameter
names and return-taint flag.  The `original_tainted_variables` and
`tainted_param_map` components, which the call site does not read, are
elided. -/
structure InterprocTaintResult where
  tainted_param_names : List String
  is_return_tainted : Bool
deriving DecidableEq

/-! ## Python `int(str(loc.dest), 16)`

`get_sliced_calls` (vfa.py 105) and the `MLIL_CALL_SSA` arm of
`is_function_param_tainted` (vfa.py 831) convert the textual form of a call
destination with `int(..., 16)`.  `parseHex` models that conversion on the
inputs that occur: an optional `0x`/`0X` prefix followed by hexadecimal
digits parses to the number; anything else (in particular the name of a
variable holding an indirect call target, such as the text `rax`)
raises `ValueError`, modelled as `none`.  (Python's tolerance for single
underscores between digits is not modelled; no input used here contains an
underscore.) -/

/-- Value of one hexadecimal digit, or `none`. -/
def hexDigitVal (c : Char) : Option Nat :=
  if c.isDigit then some (c.toNat - 48)
  else if 97 ≤ c.toNat ∧ c.toNat ≤ 102 then some (c.toNat - 87)
  else if 65 ≤ c.toNat ∧ c.toNat ≤ 70 then some (c.toNat - 55)
  else none

/-- Accumulating hex-digit parser; fails on the first non-digit. -/
def parseHexDigits : List Char → Nat → Option Nat
  | [], acc => some acc
  | c :: cs, acc =>
    match hexDigitVal c with
    | some d => parseHexDigits cs (acc * 16 + d)
    | none => none

/-- Models `int(s, 16)`: `some` the value, `none` the `ValueError`. -/
def parseHex (s : String) : Option Nat :=
  let cs := s.toList
  let cs := if cs.take 2 = ['0', 'x'] ∨ cs.take 2 = ['0', 'X'] then cs.drop 2 else cs
  match cs with
  | [] => none
  | _ => parseHexDigits cs 0

/-! ## The call-site extractor `get_sliced_calls` (vfa.py 62-127) -/

/-- The slice of an MLIL instruction that `get_sliced_calls` reads: its
operation, the textual form of its call destination (`str(loc.dest)`), and
its argument variables (`loc.params`, restricted to the underlying
variables, which is all `param_var_map` matches on per the spec). -/
structure MLILLoc where
  operation : MediumLevelILOperation
  dest_text : String
  params : List Var
deriving DecidableEq

/-- `TaintedLOC`: one instruction visited during a slice (address and
IR location).  The variants' further payload (matched value, confidence) is
not read by `get_sliced_calls`. -/
structure TaintedLOC where
  addr : Nat
  loc : MLILLoc
deriving DecidableEq

/-- Modelled from the spec: `param_var_map` is defined in the repository's
`auxiliary` module, which is not under src/.  Per the spec (§4.2) it maps
each call argument that matches a propagated taint value to the pair
(matched taint value, argument position), argument positions counted
from 1; an argument matching no propagated value contributes nothing, so
the map is empty when no argument matches. -/
def param_var_map (params : List Var) (propagated_vars : List TaintedValue) :
    List (Var × TaintedValue × Nat) :=
  params.enum.filterMap fun pr =>
    match propagated_vars.find? (fun tv => decide (TaintedValue.var tv = pr.2)) with
    | some tv => some (pr.2, tv, pr.1 + 1)
    | none => none

/-- One entry of the dictionary `get_sliced_calls` builds:
`(func_name, call_addr) ↦ (callee name, callee start, the call instruction,
tainted-argument map)` (vfa.py 113-125). -/
abbrev SlicedCallEntry :=
  (String × Nat) × (String × Nat × MLILLoc × List (Var × TaintedValue × Nat))

/-- The message of the `ValueError` that `int(str(loc.dest), 16)` raises on a
destination that is not a base-16 numeral. -/
def valueErrorMsg : String := "ValueError: invalid literal for int() with base 16"

/-- The loop of `get_sliced_calls` (vfa.py 99-125): for each visited
location, if it is an `MLIL_CALL`, build the `param_var_map`, then convert
`str(loc.dest)` with `int(..., 16)` (raising `ValueError` if it does not
parse) and resolve the address with `addr_to_func`; an unresolved address
skips the call (`else: continue`), a resolved one records the entry under
`(func_name, addr)`. -/
def get_sliced_calls_go (addr_to_func : Nat → Option FuncInfo) (func_name : String)
    (propagated_vars : List TaintedValue) :
    List TaintedLOC → Except String (List SlicedCallEntry)
  | [] => Except.ok []
  | tl :: rest =>
    if tl.loc.operation = MediumLevelILOperation.MLIL_CALL then
      let param_map := param_var_map tl.loc.params propagated_vars
      match parseHex tl.loc.dest_text with
      | none => Except.error valueErrorMsg
      | some a =>
        match addr_to_func a with
        | some f =>
          Except.map
            (fun entries =>
              ((func_name, tl.addr), (f.name, f.start, tl.loc, param_map)) :: entries)
            (get_sliced_calls_go addr_to_func func_name propagated_vars rest)
        | none => get_sliced_calls_go addr_to_func func_name propagated_vars rest
    else get_sliced_calls_go addr_to_func func_name propagated_vars rest

/-- `Analysis.get_sliced_calls` (vfa.py 62-127).  The result type models the
source's annotation `dict | None`; every normal exit of the source is
`return function_calls` with `function_calls` initialized to `{}`, embedded
as `Except.ok (some entries)`. -/
def get_sliced_calls (addr_to_func : Nat → Option FuncInfo) (data : List TaintedLOC)
    (func_name : String) (propagated_vars : List TaintedValue) :
    Except String (Option (List SlicedCallEntry)) :=
  Except.map some (get_sliced_calls_go addr_to_func func_name propagated_vars data)

/-- The test `if sliced_calls is None:` of `complete_slice` (vfa.py 530):
true exactly when the extractor returned normally with `None`. -/
def complete_slice_none_check : Except String (Option (List SlicedCallEntry)) → Bool
  | Except.ok none => true
  | _ => false

/-! ## The imported-function guard of `complete_slice` (vfa.py 548-550) -/

/-- The guard `if analyze_imported_functions and call_name in imported_functions:
continue` at vfa.py 549: true exactly when the queued call is skipped
(not descended into) at this check. -/
def complete_slice_skips_imported (analyze_imported_functions : Bool)
    (call_name : String) (imported_functions : List String) : Bool :=
  analyze_imported_functions && imported_functions.contains call_name

/-! ## Memoization of the slicing entry points (vfa.py 129, 458)

`tainted_slice` and `complete_slice` are decorated with `functools.cache`,
which keeps a table keyed on the call's arguments: a call whose key is
present returns the stored result without invoking the body; a miss invokes
the body and stores the result.  The key types below follow the source's
parameter lists.  `TaintTarget` is defined in the repository's
`bingoggles_types` module, which is not under src/; it is modelled from the
spec (§3 "Identifies a taint seed. Immutable once constructed", §5
"keyed on the full tuple ... with value-equality (not identity)
semantics") as a value-equality record of location address and variable
name. -/

/-- Modelled from the spec: `TaintTarget` — (location address, variable).
In Lean, `variable` is a keyword, so the field is `var_name`. -/
structure TaintTarget where
  loc_address : Nat
  var_name : String
deriving DecidableEq

/-- `SlicingID`: how the seed is resolved to an IR variable. -/
inductive SlicingID
  | FunctionVar
  | GlobalVar
  | StructMember
  | FunctionParam
deriving DecidableEq

/-- `SliceType`: slice direction. -/
inductive SliceType
  | Forward
  | Backward
deriving DecidableEq

/-- `OutputMode`: materialise results or print them. -/
inductive OutputMode
  | Returned
  | Printed
deriving DecidableEq

/-- Key of the `functools.cache` table of `tainted_slice`
(vfa.py 130-136): the full argument tuple. -/
structure SliceKey where
  target : TaintTarget
  var_type : SlicingID
  output : OutputMode
  slice_type : SliceType
deriving DecidableEq

/-- Key of the `functools.cache` table of `complete_slice` (vfa.py 459-466). -/
structure CompleteSliceKey where
  target : TaintTarget
  var_type : SlicingID
  slice_type : SliceType
  output : OutputMode
  analyze_imported_functions : Bool
deriving DecidableEq

/-- `functools.cache` on a function `f`: look the key up in the memo table;
on a hit return the stored result (the boolean records whether the body was
invoked: `false` on a hit); on a miss invoke `f`, store and return.  The
table is an association list in insertion order. -/
def cachedCall {κ ρ : Type} [DecidableEq κ] (f : κ → ρ) (cache : List (κ × ρ)) (k : κ) :
    ρ × List (κ × ρ) × Bool :=
  match cache.find? (fun p => decide (p.1 = k)) with
  | some p => (p.2, cache, false)
  | none => (f k, (k, f k) :: cache, true)

/-- The memoized `tainted_slice` entry point: its body abstracted as `impl`
(a pure function of the key), wrapped in the `functools.cache` table. -/
def tainted_slice_cached {ρ : Type} (impl : SliceKey → ρ)
    (cache : List (SliceKey × ρ)) (k : SliceKey) : ρ × List (SliceKey × ρ) × Bool :=
  cachedCall impl cache k

/-- The memoized `complete_slice` entry point, likewise. -/
def complete_slice_cached {ρ : Type} (impl : CompleteSliceKey → ρ)
    (cache : List (CompleteSliceKey × ρ)) (k : CompleteSliceKey) :
    ρ × List (CompleteSliceKey × ρ) × Bool :=
  cachedCall impl cache k

/-! ## The closure step `walk_variable` (vfa.py 662-686)

`walk_variable(var_mapping, key_names)` returns `key_names` when no tracked
name is a key of the mapping, else replaces every mapped name by its image
(unmapped names stay) and recurses.  The Python recursion has no fuel; the
embedding adds explicit fuel, `none` meaning the Python call has not
returned within that many recursive steps (so "the recursion reaches no
result for any fuel" embeds non-termination). -/

/-- The def→read-set mapping `variable_mapping`: written variable ↦
variables read by its defining instruction. -/
abbrev VarMapping := List (Var × List Var)

/-- Python `var_name in var_mapping` / `var_mapping[var_name]`. -/
def lookupMapping : VarMapping → Var → Option (List Var)
  | [], _ => none
  | (k, vs) :: rest, v => if v = k then some vs else lookupMapping rest v

/-- `any(var in var_mapping for var in key_names)` (vfa.py 673). -/
def anyMapped (m : VarMapping) (s : List Var) : Bool :=
  s.any fun v => (lookupMapping m v).isSome

/-- One round of the loop at vfa.py 676-684: each mapped name is replaced
by its image, an unmapped name is kept. -/
def walkStep (m : VarMapping) (s : List Var) : List Var :=
  (s.map fun v =>
    match lookupMapping m v with
    | some vs => vs
    | none => [v]).flatten

/-- `walk_variable` with explicit fuel (vfa.py 662-686): if no tracked name
is mapped, return the set; else recurse on the stepped set. -/
def walk_variable (m : VarMapping) : Nat → List Var → Option (List Var)
  | 0, _ => none
  | fuel + 1, key_names =>
    if anyMapped m key_names then walk_variable m fuel (walkStep m key_names)
    else some key_names

/-- The Python call `walk_variable(m, s)` returns (at all). -/
def walkHalts (m : VarMapping) (s : List Var) : Prop :=
  ∃ fuel, (walk_variable m fuel s).isSome = true

/-- Termination measure for acyclic mappings: the maximum, over the mapped
names in the set, of one plus the name's height. -/
def walkMeasure (m : VarMapping) (h : Var → Nat) (s : List Var) : Nat :=
  (s.filter fun v => (lookupMapping m v).isSome).foldr
    (fun v acc => max (h v + 1) acc) 0

/-! ## The `StructMember` branch of `tainted_slice` (vfa.py 265-381)

The branch reads the seed instruction in both IL forms and dispatches on
operation kinds:

* `if instr_hlil.operation == HLIL_ASSIGN:` — inside, trace only when the
  destination is an `HLIL_DEREF_FIELD` whose base is an `HLIL_VAR`
  (vfa.py 273-314); any inner mismatch falls through silently;
* `elif instr_mlil.operation == MLIL_SET_VAR:` — inside, trace when the
  source operation is `MLIL_LOAD_STRUCT` or `MLIL_VAR_FIELD`
  (vfa.py 316-376); any other source falls through silently;
* `else: raise ValueError(...)` (vfa.py 378-381).

A silent fall-through leaves `sliced_func = {}` and `propagated_vars = []`,
so `OutputMode.Returned` hands back the empty slice `([], func_name, [])`
(vfa.py 437-451).  The embedding captures the dispatch over the operation
kinds; the operand attribute reads of vfa.py 267-271 belong to the external
IR layer and are outside the model. -/

/-- The operation kinds of the instruction at a struct-member seed address,
as the dispatch reads them: HLIL operation, its destination's operation and
the destination's base operation, MLIL operation and its source's
operation. -/
structure StructMemberSite where
  hlil_operation : HighLevelILOperation
  hlil_dest_operation : HighLevelILOperation
  hlil_dest_src_operation : HighLevelILOperation
  mlil_operation : MediumLevelILOperation
  mlil_src_operation : MediumLevelILOperation
deriving DecidableEq

/-- Outcome of the `StructMember` branch: a `TaintedStructMember` was built
and traced; the branch fell through and the empty slice was returned; or
the `ValueError` of vfa.py 378-381 was raised. -/
inductive StructSliceOutcome
  | traced
  | emptySlice
  | shapeValueError
deriving DecidableEq

/-- The `StructMember` dispatch of `tainted_slice` (vfa.py 273-381). -/
def tainted_slice_struct_member (site : StructMemberSite) : StructSliceOutcome :=
  if site.hlil_operation = HighLevelILOperation.HLIL_ASSIGN then
    if site.hlil_dest_operation = HighLevelILOperation.HLIL_DEREF_FIELD then
      if site.hlil_dest_src_operation = HighLevelILOperation.HLIL_VAR then
        StructSliceOutcome.traced
      else StructSliceOutcome.emptySlice
    else StructSliceOutcome.emptySlice
  else if site.mlil_operation = MediumLevelILOperation.MLIL_SET_VAR then
    if site.mlil_src_operation = MediumLevelILOperation.MLIL_LOAD_STRUCT then
      StructSliceOutcome.traced
    else if site.mlil_src_operation = MediumLevelILOperation.MLIL_VAR_FIELD then
      StructSliceOutcome.traced
    else StructSliceOutcome.emptySlice
  else StructSliceOutcome.shapeValueError

/-- Recognized shape (1) of the spec: an assignment whose destination is a
field-dereference (`dest.field = ...`). -/
def matchesShape1 (site : StructMemberSite) : Prop :=
  site.hlil_operation = HighLevelILOperation.HLIL_ASSIGN ∧
    site.hlil_dest_operation = HighLevelILOperation.HLIL_DEREF_FIELD

/-- Recognized shape (2) of the spec: an assignment whose source is a
struct-load or a field-extraction (`x = src.field` / `x = var.field`). -/
def matchesShape2 (site : StructMemberSite) : Prop :=
  site.mlil_operation = MediumLevelILOperation.MLIL_SET_VAR ∧
    (site.mlil_src_operation = MediumLevelILOperation.MLIL_LOAD_STRUCT ∨
      site.mlil_src_operation = MediumLevelILOperation.MLIL_VAR_FIELD)

/-! ## The `FunctionParam` branch of `tainted_slice` (vfa.py 385-420) -/

/-- One reference from `func_obj.get_mlil_var_refs(target_param)`: its
address, and whether `func_obj.get_llil_at(address).mlil` is not `None`. -/
structure ParamRef where
  address : Nat
  has_mlil : Bool
deriving DecidableEq

/-- The start address the branch picks (vfa.py 407-411): the first listed
reference whose MLIL form exists; `[0]` on an empty list raises IndexError,
modelled as `none`. -/
def functionParamSliceStart (param_refs : List ParamRef) : Option Nat :=
  ((param_refs.filter fun r => r.has_mlil).map fun r => r.address).head?

/-- The `trace_type` each branch of `tainted_slice` passes to
`trace_tainted_variable`: the `FunctionVar` (vfa.py 193-209), `GlobalVar`
(242-258) and `StructMember` (293-376) branches forward the caller's
`slice_type` through their Forward/Backward dispatch; the `FunctionParam`
branch passes `SliceType.Forward` unconditionally (vfa.py 414-420). -/
def trace_type_used (var_type : SlicingID) (slice_type : SliceType) : SliceType :=
  match var_type with
  | SlicingID.FunctionParam => SliceType.Forward
  | _ =>
    match slice_type with
    | SliceType.Forward => SliceType.Forward
    | SliceType.Backward => SliceType.Backward

/-! ## The per-instruction pass of `is_function_param_tainted` (vfa.py 757-926)

The loop walks every MLIL instruction in order; a `match` on the SSA
operation adds tainted values for the recognized kinds, then (outside the
match) every written variable is mapped to the instruction's read set and
the read-based propagation rule runs.  A Python `continue` inside the
`MLIL_CALL_SSA` arm (vfa.py 838-839, when the call destination resolves to
no function) skips that whole tail for the instruction; an unparseable
destination text raises `ValueError` out of the analysis (vfa.py 831).

The recursive descent into a callee is the subject of claim C1: the source
guards it with `if recursion_limit < sub_functions_analyzed:` (vfa.py 854)
and the recursive call at vfa.py 855-861 passes neither `recursion_limit`
nor `sub_functions_analyzed`, so a callee is analyzed with the defaults
(8, 0).  The embedding keeps the guard exactly and abstracts the recursive
call as the oracle `sub_analysis` (what `self.is_function_param_tainted`
on the callee would return). -/

/-- The fields of one MLIL instruction (SSA form) that the pass reads.
`store_dest_var` is `addr_var or address_variable` of an `MLIL_STORE_SSA`
destination (vfa.py 769-774), `store_offset_var` its offset variable when
the destination has two operands; `call_params` are the `MediumLevelILVarSsa`
arguments of an `MLIL_CALL_SSA` and `call_dest_text` is `str(loc.dest)`;
`field_dest` is the destination of an `MLIL_SET_VAR_SSA_FIELD`. -/
structure SSAInstr where
  operation : MediumLevelILOperation
  address : Nat
  vars_read : List Var
  vars_written : List Var
  store_dest_var : Option Var
  store_offset_var : Option Var
  call_params : List Var
  call_dest_text : String
  field_dest : Option Var
deriving DecidableEq

/-- The mutable state of the pass: the `tainted_variables` set and the
`variable_mapping` dict (vfa.py 704, 753). -/
structure TaintState where
  tainted_variables : List TaintedValue
  variable_mapping : VarMapping
deriving DecidableEq

/-- The recursion guard at vfa.py 854:
`if recursion_limit < sub_functions_analyzed:`.  The recursive descent into
the callee happens exactly when this is true. -/
def descend_guard (recursion_limit sub_functions_analyzed : Nat) : Bool :=
  decide (recursion_limit < sub_functions_analyzed)

/-- `any(tv.variable == v for tv in tainted_variables)`. -/
def taintedIn (tvs : List TaintedValue) (v : Var) : Bool :=
  tvs.any fun tv => decide (TaintedValue.var tv = v)

/-- Membership of a value for `v` with `Tainted` confidence. -/
def taintedWithConf (tvs : List TaintedValue) (v : Var) : Bool :=
  tvs.any fun tv =>
    decide (TaintedValue.var tv = v) &&
      decide (TaintedValue.confidence_level tv = TaintConfidence.Tainted)

/-- The `match` arm of the pass (vfa.py 761-908), reduced to what it does to
the state: every arm only adds tainted values.  The result is the list of
additions; `Except.ok none` is the Python `continue` of vfa.py 839 (the
mapping update and read rule are skipped for this instruction);
`Except.error` is the `ValueError` of `int(str(loc.dest), 16)`.

Arm by arm:
* `MLIL_STORE_SSA` (763-809): adds one `TaintedAddressOfField` for the
  destination; whether the offset variable occurs among the mapping keys
  selects between the two constructions (both confidence `Tainted`).
* `MLIL_SET_VAR_SSA` (812-820): adds a `TaintedVar` for every written
  variable.
* `MLIL_CALL_SSA` (823-890): parse the destination text, resolve it
  (`continue` when unresolved), zip the SSA arguments with the callee's
  parameters, collect the callee parameters whose argument is tainted, and
  — only when `descend_guard` holds — consult the recursive analysis,
  mapping its tainted parameters back to caller-side arguments, and adding
  the written (return) variables when the callee's return is tainted.
* `MLIL_SET_VAR_SSA_FIELD` (892-894): adds a `TaintedVar` for the
  destination.
* every other operation (897-908): prints a diagnostic for unaccounted
  kinds, adds nothing. -/
def arm_additions (recursion_limit sub_functions_analyzed : Nat)
    (sub_analysis : FuncInfo → List String → InterprocTaintResult)
    (addr_to_func : Nat → Option FuncInfo) (st : TaintState) (instr : SSAInstr) :
    Except String (Option (List TaintedValue)) :=
  match instr.operation with
  | MediumLevelILOperation.MLIL_STORE_SSA =>
    let offset_hit :=
      match instr.store_offset_var with
      | some ov => st.variable_mapping.any fun p => decide (p.1 = ov)
      | none => false
    Except.ok (some
      [TaintedValue.taintedAddressOfField (instr.store_dest_var.getD 0) offset_hit
        instr.address])
  | MediumLevelILOperation.MLIL_SET_VAR_SSA =>
    Except.ok (some (instr.vars_written.map fun v =>
      TaintedValue.taintedVar v TaintConfidence.Tainted instr.address))
  | MediumLevelILOperation.MLIL_CALL_SSA =>
    match parseHex instr.call_dest_text with
    | none => Except.error valueErrorMsg
    | some a =>
      match addr_to_func a with
      | none => Except.ok none
      | some call_object =>
        let zipped := instr.call_params.zip call_object.parameter_vars
        let tainted_sub_params :=
          (zipped.filter fun p => taintedIn st.tainted_variables p.1).map fun p => p.2
        if descend_guard recursion_limit sub_functions_analyzed then
          let interproc_results := sub_analysis call_object tainted_sub_params
          let tainted_sub_variables :=
            (zipped.filter fun p =>
              interproc_results.tainted_param_names.contains p.2).map fun p => p.1
          let sub_adds := tainted_sub_variables.map fun v =>
            TaintedValue.taintedVar v TaintConfidence.Tainted instr.address
          let ret_adds :=
            if interproc_results.is_return_tainted then
              instr.vars_written.map fun v =>
                TaintedValue.taintedVar v TaintConfidence.Tainted instr.address
            else []
          Except.ok (some (ret_adds ++ sub_adds))
        else Except.ok (some [])
  | MediumLevelILOperation.MLIL_SET_VAR_SSA_FIELD =>
    match instr.field_dest with
    | some d =>
      Except.ok (some [TaintedValue.taintedVar d TaintConfidence.Tainted instr.address])
    | none => Except.ok (some [])
  | _ => Except.ok (some [])

/-- The tail of the loop body (vfa.py 910-926), run after the match arm when
no `continue` fired: map every written variable to the read set, then, if
any read variable is tainted, add every written variable as a `TaintedVar`
with `Tainted` confidence. -/
def read_rule_suffix (st : TaintState) (instr : SSAInstr) : TaintState :=
  let m := instr.vars_written.foldl
    (fun acc w => (w, instr.vars_read) :: acc) st.variable_mapping
  let tainted :=
    if instr.vars_read.any (fun r => taintedIn st.tainted_variables r) then
      (instr.vars_written.map fun w =>
        TaintedValue.taintedVar w TaintConfidence.Tainted instr.address)
        ++ st.tainted_variables
    else st.tainted_variables
  { tainted_variables := tainted, variable_mapping := m }

/-- One iteration of the instruction loop of `is_function_param_tainted`
(vfa.py 758-926): the match arm, then — unless the arm hit `continue` or
raised — the mapping update and the read-based propagation rule. -/
def processInstr (recursion_limit sub_functions_analyzed : Nat)
    (sub_analysis : FuncInfo → List String → InterprocTaintResult)
    (addr_to_func : Nat → Option FuncInfo) (st : TaintState) (instr : SSAInstr) :
    Except String TaintState :=
  match arm_additions recursion_limit sub_functions_analyzed sub_analysis addr_to_func
      st instr with
  | Except.error e => Except.error e
  | Except.ok none => Except.ok st
  | Except.ok (some adds) =>
    Except.ok (read_rule_suffix
      { st with tainted_variables := adds ++ st.tainted_variables } instr)

/-- The whole single pass over a function body (vfa.py 757-926), instruction
by instruction in program order. -/
def is_function_param_tainted_pass (recursion_limit sub_functions_analyzed : Nat)
    (sub_analysis : FuncInfo → List String → InterprocTaintResult)
    (addr_to_func : Nat → Option FuncInfo) :
    TaintState → List SSAInstr → Except String TaintState
  | st, [] => Except.ok st
  | st, instr :: rest =>
    match processInstr recursion_limit sub_functions_analyzed sub_analysis addr_to_func
        st instr with
    | Except.ok st' =>
      is_function_param_tainted_pass recursion_limit sub_functions_analyzed sub_analysis
        addr_to_func st' rest
    | Except.error e => Except.error e

/-- Whether the embedded loop iteration left `v` tainted (false on the
raising path). -/
def resultTaints (r : Except String TaintState) (v : Var) : Bool :=
  match r with
  | Except.ok st => taintedIn st.tainted_variables v
  | Except.error _ => false

/-- Whether the embedded loop iteration left `v` tainted with `Tainted`
confidence. -/
def resultTaintsTainted (r : Except String TaintState) (v : Var) : Bool :=
  match r with
  | Except.ok st => taintedWithConf st.tainted_variables v
  | Except.error _ => false

/-! ## Concrete inputs used by the theorems below -/

/-- A resolvable callee with one parameter. -/
def exCallee : FuncInfo := { name := "callee", start := 4096, parameter_vars := ["p"] }

/-- Address resolution knowing only `exCallee` at `0x1000`. -/
def exAtf : Nat → Option FuncInfo := fun a => if a = 4096 then some exCallee else none

/-- Address resolution that resolves nothing. -/
def noneAtf : Nat → Option FuncInfo := fun _ => none

/-- A recursive-analysis oracle reporting the callee's parameter `p` tainted
and its return value tainted. -/
def exSub : FuncInfo → List String → InterprocTaintResult :=
  fun _ _ => { tainted_param_names := ["p"], is_return_tainted := true }

/-- A state in which SSA variable 1 is tainted. -/
def exState : TaintState :=
  { tainted_variables := [TaintedValue.taintedVar 1 TaintConfidence.Tainted 0],
    variable_mapping := [] }

/-- The name of the analyzed caller. -/
def mainName : String := "main"

/-- The name of an imported function. -/
def strcpyName : String := "strcpy"

/-- A call passing the tainted variable 1 as the only argument to `exCallee`
and writing its result into variable 7. -/
def c1_instr : SSAInstr :=
  { operation := MediumLevelILOperation.MLIL_CALL_SSA, address := 8,
    vars_read := [], vars_written := [7], store_dest_var := none,
    store_offset_var := none, call_params := [1], call_dest_text := "0x1000",
    field_dest := none }

/-- A call instruction visited by a slice, whose single argument (variable 5)
matches no propagated taint value. -/
def c3_loc : MLILLoc :=
  { operation := MediumLevelILOperation.MLIL_CALL, dest_text := "0x1000", params := [5] }

/-- A one-instruction slice holding only `c3_loc`. -/
def c3_data : List TaintedLOC := [{ addr := 256, loc := c3_loc }]

/-- An indirect call: its destination is the register variable text `rax`,
which `int(..., 16)` cannot parse. -/
def c7_loc : MLILLoc :=
  { operation := MediumLevelILOperation.MLIL_CALL, dest_text := "rax", params := [3] }

/-- A one-instruction slice holding only the indirect call `c7_loc`. -/
def c7_data : List TaintedLOC := [{ addr := 64, loc := c7_loc }]

/-- A slice with one call whose parsed address resolves to no function
(skipped) and one call resolving to `exCallee`. -/
def c7w_data : List TaintedLOC :=
  [{ addr := 10,
     loc := { operation := MediumLevelILOperation.MLIL_CALL, dest_text := "0x500",
              params := [] } },
   { addr := 20,
     loc := { operation := MediumLevelILOperation.MLIL_CALL, dest_text := "0x1000",
              params := [] } }]

/-- An indirect call through the register variable text `rbx`. -/
def c10_loc : MLILLoc :=
  { operation := MediumLevelILOperation.MLIL_CALL, dest_text := "rbx", params := [] }

/-- A one-instruction slice holding only the indirect call `c10_loc`. -/
def c10_data : List TaintedLOC := [{ addr := 68, loc := c10_loc }]

/-- A call reading the tainted variable 1 and writing variable 2, whose
destination address `0x2000` resolves to no known function. -/
def c9_instr : SSAInstr :=
  { operation := MediumLevelILOperation.MLIL_CALL_SSA, address := 16,
    vars_read := [1], vars_written := [2], store_dest_var := none,
    store_offset_var := none, call_params := [1], call_dest_text := "0x2000",
    field_dest := none }

/-- An instruction of an operation kind the match does not name, reading the
tainted variable 1 and writing variable 2. -/
def c9w_instr : SSAInstr :=
  { operation := MediumLevelILOperation.MLIL_OTHER, address := 24,
    vars_read := [1], vars_written := [2], store_dest_var := none,
    store_offset_var := none, call_params := [], call_dest_text := "",
    field_dest := none }

/-- The def→read-set mapping of two loop-carried SSA definitions, each
appearing in the other's read set. -/
def cyclicMapping : VarMapping := [(0, [1]), (1, [0])]

/-- An acyclic def→read-set mapping: 0 is defined from 1. -/
def chainMapping : VarMapping := [(0, [1])]

/-- A height function witnessing that `chainMapping` is acyclic. -/
def chainHeight : Var → Nat := fun v => if v = 0 then 1 else 0

/-- An aliased-field extraction `x = y.field` (first definition of `x`):
HLIL var-init, MLIL set-var whose source operation is
`MLIL_VAR_ALIASED_FIELD` — an instruction performing a struct access that
matches neither recognized shape of the dispatch. -/
def c6_site : StructMemberSite :=
  { hlil_operation := HighLevelILOperation.HLIL_VAR_INIT,
    hlil_dest_operation := HighLevelILOperation.HLIL_OTHER,
    hlil_dest_src_operation := HighLevelILOperation.HLIL_OTHER,
    mlil_operation := MediumLevelILOperation.MLIL_SET_VAR,
    mlil_src_operation := MediumLevelILOperation.MLIL_VAR_ALIASED_FIELD }

/-- A call instruction at a struct-member seed: neither an HLIL assignment
nor an MLIL set-var. -/
def c6w_site : StructMemberSite :=
  { hlil_operation := HighLevelILOperation.HLIL_OTHER,
    hlil_dest_operation := HighLevelILOperation.HLIL_OTHER,
    hlil_dest_src_operation := HighLevelILOperation.HLIL_OTHER,
    mlil_operation := MediumLevelILOperation.MLIL_CALL,
    mlil_src_operation := MediumLevelILOperation.MLIL_OTHER }

/-- A concrete `tainted_slice` seed key. -/
def c4_key : SliceKey :=
  { target := { loc_address := 4096, var_name := "buf" },
    var_type := SlicingID.FunctionVar, output := OutputMode.Returned,
    slice_type := SliceType.Forward }

/-- A concrete `complete_slice` seed key. -/
def c4_ckey : CompleteSliceKey :=
  { target := { loc_address := 4096, var_name := "buf" },
    var_type := SlicingID.FunctionVar, slice_type := SliceType.Forward,
    output := OutputMode.Returned, analyze_imported_functions := false }

/-- Parameter references whose first entry has no MLIL form. -/
def c8_refs : List ParamRef :=
  [{ address := 16, has_mlil := false }, { address := 32, has_mlil := true }]

/-! ## Helper lemmas -/

/-- A successful `lookupMapping` result is a member of the mapping. -/
theorem lookupMapping_mem (m : VarMapping) (v : Var) (vs : List Var)
    (h : lookupMapping m v = some vs) : (v, vs) ∈ m := by
  induction m with
  | nil => cases h
  | cons p rest ih =>
    obtain ⟨k, vs'⟩ := p
    by_cases hv : v = k
    · subst hv
      simp [lookupMapping] at h
      subst h
      exact List.mem_cons_self _ _
    · simp only [lookupMapping, if_neg hv] at h
      exact List.mem_cons_of_mem _ (ih h)

/-- Fold-max dominates every member. -/
theorem le_foldr_max (g : Var → Nat) (l : List Var) (x : Var) (hx : x ∈ l) :
    g x ≤ l.foldr (fun v acc => max (g v) acc) 0 := by
  induction l with
  | nil => cases hx
  | cons a t ih =>
    rcases List.mem_cons.mp hx with rfl | hx'
    · exact le_max_left _ _
    · exact le_trans (ih hx') (le_max_right _ _)

/-- Fold-max of a list bounded member-wise is bounded. -/
theorem foldr_max_le (g : Var → Nat) (l : List Var) (B : Nat)
    (hB : ∀ x ∈ l, g x ≤ B) : l.foldr (fun v acc => max (g v) acc) 0 ≤ B := by
  induction l with
  | nil => exact Nat.zero_le B
  | cons a t ih =>
    exact max_le (hB a (List.mem_cons_self a t))
      (ih fun x hx => hB x (List.mem_cons_of_mem _ hx))

/-- The measure dominates `h v + 1` for every mapped member of the set. -/
theorem walkMeasure_ge (m : VarMapping) (h : Var → Nat) (s : List Var) (v : Var)
    (hv : v ∈ s) (hm : (lookupMapping m v).isSome = true) :
    h v + 1 ≤ walkMeasure m h s := by
  unfold walkMeasure
  exact le_foldr_max (fun v => h v + 1) _ v (List.mem_filter.mpr ⟨hv, hm⟩)

/-- When some tracked name is mapped, the measure is positive. -/
theorem walkMeasure_pos (m : VarMapping) (h : Var → Nat) (s : List Var)
    (hs : anyMapped m s = true) : 0 < walkMeasure m h s := by
  unfold anyMapped at hs
  rw [List.any_eq_true] at hs
  obtain ⟨v, hv, hm⟩ := hs
  exact lt_of_lt_of_le (Nat.succ_pos _) (walkMeasure_ge m h s v hv hm)

/-- Under a decreasing height function, one `walkStep` strictly decreases
the measure whenever it fires. -/
theorem walkMeasure_step_lt (m : VarMapping) (h : Var → Nat)
    (hdec : ∀ p ∈ m, ∀ u ∈ p.2, h u < h p.1) (s : List Var)
    (hs : anyMapped m s = true) :
    walkMeasure m h (walkStep m s) < walkMeasure m h s := by
  have hpos := walkMeasure_pos m h s hs
  have hbound : ∀ u ∈ walkStep m s, (lookupMapping m u).isSome = true →
      h u + 1 ≤ walkMeasure m h s - 1 := by
    intro u hu hum
    unfold walkStep at hu
    rw [List.mem_flatten] at hu
    obtain ⟨l, hl, hul⟩ := hu
    rw [List.mem_map] at hl
    obtain ⟨v, hv, rfl⟩ := hl
    cases hlk : lookupMapping m v with
    | none =>
      rw [hlk] at hul
      simp only [List.mem_singleton] at hul
      subst hul
      rw [hlk] at hum
      cases hum
    | some vs =>
      rw [hlk] at hul
      simp only at hul
      have hw : h u < h v := hdec (v, vs) (lookupMapping_mem m v vs hlk) u hul
      have hvm : h v + 1 ≤ walkMeasure m h s :=
        walkMeasure_ge m h s v hv (by rw [hlk]; rfl)
      omega
  have hle : walkMeasure m h (walkStep m s) ≤ walkMeasure m h s - 1 := by
    unfold walkMeasure
    refine foldr_max_le (fun u => h u + 1) _ _ ?_
    intro u hu
    rw [List.mem_filter] at hu
    exact hbound u hu.1 hu.2
  omega

/-- Fuel one more than the measure suffices for `walk_variable` to return. -/
theorem walk_variable_halts_of_measure (m : VarMapping) (h : Var → Nat)
    (hdec : ∀ p ∈ m, ∀ u ∈ p.2, h u < h p.1) :
    ∀ N s, walkMeasure m h s ≤ N → (walk_variable m (N + 1) s).isSome = true := by
  intro N
  induction N with
  | zero =>
    intro s hM
    cases ha : anyMapped m s with
    | false => simp [walk_variable, ha]
    | true =>
      have := walkMeasure_pos m h s ha
      omega
  | succ n ih =>
    intro s hM
    cases ha : anyMapped m s with
    | false => simp [walk_variable, ha]
    | true =>
      have hlt := walkMeasure_step_lt m h hdec s ha
      have hstep : walkMeasure m h (walkStep m s) ≤ n := by omega
      have := ih (walkStep m s) hstep
      simpa [walk_variable, ha] using this

/-- On the cyclic mapping, the recursion alternates between the two
singleton sets and never returns, whatever the fuel. -/
theorem walk_variable_cyclic_none :
    ∀ fuel, walk_variable cyclicMapping fuel [0] = none ∧
      walk_variable cyclicMapping fuel [1] = none := by
  intro fuel
  induction fuel with
  | zero => exact ⟨rfl, rfl⟩
  | succ n ih => exact ⟨ih.2, ih.1⟩

/-- A cache hit returns the stored value without invoking the body. -/
theorem cachedCall_second_hit {κ ρ : Type} [DecidableEq κ] (f : κ → ρ)
    (c c' : List (κ × ρ)) (k : κ) (r : ρ) (b : Bool)
    (h : cachedCall f c k = (r, c', b)) : cachedCall f c' k = (r, c', false) := by
  unfold cachedCall at h ⊢
  cases hf : c.find? (fun p => decide (p.1 = k)) with
  | some p =>
    rw [hf] at h
    injection h with h1 h'
    injection h' with h2 h3
    subst h1
    subst h2
    rw [hf]
  | none =>
    rw [hf] at h
    injection h with h1 h'
    injection h' with h2 h3
    subst h1
    subst h2
    have hhead : ((k, f k) :: c).find? (fun p => decide (p.1 = k)) = some (k, f k) :=
      List.find?_cons_of_pos _ (by simp)
    rw [hhead]

/-- When the destination of a call instruction parses and resolves (and for
every non-call instruction), the match arm neither raises nor hits
`continue`: it produces a list of additions. -/
theorem arm_additions_adds (rl sfa : Nat)
    (sub : FuncInfo → List String → InterprocTaintResult)
    (atf : Nat → Option FuncInfo) (st : TaintState) (instr : SSAInstr)
    (hcall : instr.operation = MediumLevelILOperation.MLIL_CALL_SSA →
      ∃ a f, parseHex instr.call_dest_text = some a ∧ atf a = some f) :
    ∃ adds, arm_additions rl sfa sub atf st instr = Except.ok (some adds) := by
  unfold arm_additions
  split
  · exact ⟨_, rfl⟩
  · exact ⟨_, rfl⟩
  · next heq =>
    obtain ⟨a, f, ha, hf⟩ := hcall heq
    split
    · next hnone => rw [ha] at hnone; cases hnone
    · next a' ha' =>
      rw [ha] at ha'
      injection ha' with ha''
      subst ha''
      split
      · next hfn => rw [hf] at hfn; cases hfn
      · next f' hf' =>
        split
        · exact ⟨_, rfl⟩
        · exact ⟨_, rfl⟩
  · split
    · exact ⟨_, rfl⟩
    · exact ⟨_, rfl⟩
  · exact ⟨_, rfl⟩

/-- When every call in the slice has a parseable destination, the extractor
loop returns normally, and every entry it returns stems from a call whose
destination parsed and resolved to a known function. -/
theorem get_sliced_calls_go_ok (atf : Nat → Option FuncInfo) (fn : String)
    (pv : List TaintedValue) (data : List TaintedLOC)
    (hparse : ∀ tl ∈ data, tl.loc.operation = MediumLevelILOperation.MLIL_CALL →
      (parseHex tl.loc.dest_text).isSome = true) :
    ∃ entries, get_sliced_calls_go atf fn pv data = Except.ok entries ∧
      ∀ e ∈ entries, ∃ tl ∈ data,
        tl.loc.operation = MediumLevelILOperation.MLIL_CALL ∧ e.1.2 = tl.addr ∧
        ∃ a f, parseHex tl.loc.dest_text = some a ∧ atf a = some f ∧
          e.2.1 = f.name := by
  induction data with
  | nil =>
    refine ⟨[], rfl, ?_⟩
    intro e he
    cases he
  | cons tl rest ih =>
    obtain ⟨entries, hE, hprop⟩ :=
      ih fun t ht hc => hparse t (List.mem_cons_of_mem _ ht) hc
    by_cases hop : tl.loc.operation = MediumLevelILOperation.MLIL_CALL
    · have hp := hparse tl (List.mem_cons_self _ _) hop
      obtain ⟨a, ha⟩ := Option.isSome_iff_exists.mp hp
      cases hres : atf a with
      | some f =>
        refine ⟨((fn, tl.addr),
            (f.name, f.start, tl.loc, param_var_map tl.loc.params pv)) :: entries,
          ?_, ?_⟩
        · unfold get_sliced_calls_go
          rw [if_pos hop]
          simp only [ha, hres, hE, Except.map]
        · intro e he
          rcases List.mem_cons.mp he with rfl | he'
          · exact ⟨tl, List.mem_cons_self _ _, hop, rfl, a, f, ha, hres, rfl⟩
          · obtain ⟨t, ht, h1, h2, h3⟩ := hprop e he'
            exact ⟨t, List.mem_cons_of_mem _ ht, h1, h2, h3⟩
      | none =>
        refine ⟨entries, ?_, ?_⟩
        · unfold get_sliced_calls_go
          rw [if_pos hop]
          simp only [ha, hres]
          exact hE
        · intro e he
          obtain ⟨t, ht, h1, h2, h3⟩ := hprop e he
          exact ⟨t, List.mem_cons_of_mem _ ht, h1, h2, h3⟩
    · refine ⟨entries, ?_, ?_⟩
      · unfold get_sliced_calls_go
        rw [if_neg hop]
        exact hE
      · intro e he
        obtain ⟨t, ht, h1, h2, h3⟩ := hprop e he
        exact ⟨t, List.mem_cons_of_mem _ ht, h1, h2, h3⟩

/-! ## The claims -/

/-- Claim C1.  The claim states that recursive descent into callees occurs
only while the count of sub-functions analyzed has not yet reached the
recursion limit (default 8), stopping once the bound is reached.  The code
has the guard inverted: `descend_guard 8 0` (the default invocation) is
`false`, so a call passing a tainted argument to a resolvable callee is
never descended into — evaluated here on `c1_instr`, whose return variable 7
stays untainted even though the oracle reports the callee's parameter and
return tainted — while `descend_guard 8 9` (counter strictly past the
limit) is `true` and descent then does occur (variable 7 becomes tainted). -/
theorem c1_recursion_guard_inverted :
    descend_guard 8 0 = false ∧
    resultTaints (processInstr 8 0 exSub exAtf exState c1_instr) 7 = false ∧
    descend_guard 8 9 = true ∧
    resultTaints (processInstr 8 9 exSub exAtf exState c1_instr) 7 = true := by
  decide

/-- Claim C2.  The claim states that with `analyze_imported_functions` false
every call resolving to an imported symbol is skipped, and with the flag
true such calls may be descended into.  The guard at vfa.py 549 is
inverted: with the flag false an imported call is NOT skipped, with the
flag true it IS skipped. -/
theorem c2_imported_function_guard_inverted :
    complete_slice_skips_imported false strcpyName [strcpyName] = false ∧
    complete_slice_skips_imported true strcpyName [strcpyName] = true := by
  decide

/-- Claim C3.  The claim states that every entry of `get_sliced_calls`
corresponds to a call at least one of whose arguments matches a propagated
taint value, and that calls with no matching argument do not appear.  In
the code the entry is recorded for every resolvable call regardless of the
match (vfa.py 103-125): on a slice holding one resolvable call and an
empty propagated set, the call appears in the result with an empty
tainted-argument map. -/
theorem c3_call_without_tainted_args_included :
    get_sliced_calls exAtf c3_data mainName [] =
      Except.ok (some [((mainName, 256), (exCallee.name, exCallee.start, c3_loc, []))]) := by
  rfl

/-- Claim C4.  `tainted_slice` and `complete_slice` are wrapped in
`functools.cache`: after any call (hit or miss) the table holds the key,
and a repeat call with the same key returns the identical stored result
with the body not invoked (third component `false`). -/
theorem c4_memoization_idempotent {ρ σ : Type} (impl : SliceKey → ρ)
    (cimpl : CompleteSliceKey → σ) (c : List (SliceKey × ρ))
    (d : List (CompleteSliceKey × σ)) (k : SliceKey) (k' : CompleteSliceKey)
    (r : ρ) (c₁ : List (SliceKey × ρ)) (b : Bool) (r' : σ)
    (d₁ : List (CompleteSliceKey × σ)) (b' : Bool)
    (h1 : tainted_slice_cached impl c k = (r, c₁, b))
    (h2 : complete_slice_cached cimpl d k' = (r', d₁, b')) :
    tainted_slice_cached impl c₁ k = (r, c₁, false) ∧
    complete_slice_cached cimpl d₁ k' = (r', d₁, false) :=
  ⟨cachedCall_second_hit impl c c₁ k r b h1,
    cachedCall_second_hit cimpl d d₁ k' r' b' h2⟩

/-- Witness for C4: a second call on the concrete keys returns the cached
value without recomputation. -/
theorem c4_memoization_idempotent_witness :
    tainted_slice_cached (fun _ => (42 : Nat)) [(c4_key, 42)] c4_key =
      (42, [(c4_key, 42)], false) ∧
    complete_slice_cached (fun _ => (7 : Nat)) [(c4_ckey, 7)] c4_ckey =
      (7, [(c4_ckey, 7)], false) :=
  c4_memoization_idempotent (fun _ => 42) (fun _ => 7) [] [] c4_key c4_ckey
    42 [(c4_key, 42)] true 7 [(c4_ckey, 7)] true (by decide) (by decide)

/-- Counterexample to claim C5 as stated: on the def→read-set mapping of two
loop-carried SSA definitions each appearing in the other's read set
(`cyclicMapping`), `walk_variable` started from the tainted name 0 never
reaches a fixed point or a set of unmapped names — the Python recursion
does not terminate. -/
theorem c5_walk_variable_cycle_diverges : ¬ walkHalts cyclicMapping [0] := by
  rintro ⟨fuel, hf⟩
  rw [(walk_variable_cyclic_none fuel).1] at hf
  simp at hf

/-- Claim C5, amended: the closure step terminates for every finite
def→read-set mapping that is acyclic — admits a height function strictly
decreasing from each mapped variable to every member of its read set — and
every initial name set; on cyclic mappings it can diverge. -/
theorem c5_walk_variable_terminates_acyclic (m : VarMapping) (h : Var → Nat)
    (hdec : ∀ p ∈ m, ∀ u ∈ p.2, h u < h p.1) (s : List Var) :
    walkHalts m s :=
  ⟨walkMeasure m h s + 1,
    walk_variable_halts_of_measure m h hdec (walkMeasure m h s) s le_rfl⟩

/-- Witness for the amended C5 on the concrete acyclic mapping `0 ↦ {1}`. -/
theorem c5_walk_variable_terminates_acyclic_witness : walkHalts chainMapping [0] :=
  c5_walk_variable_terminates_acyclic chainMapping chainHeight (by decide) [0]

/-- Counterexample to claim C6 as stated: `c6_site` — an aliased-field
extraction `x = y.field` — matches neither recognized shape, yet the
`StructMember` branch returns the empty slice silently instead of raising
the fatal shape error. -/
theorem c6_struct_member_silent_fallthrough :
    ¬ matchesShape1 c6_site ∧ ¬ matchesShape2 c6_site ∧
    tainted_slice_struct_member c6_site = StructSliceOutcome.emptySlice := by
  unfold matchesShape1 matchesShape2
  decide

/-- Claim C6, amended: the fatal shape error is raised exactly when the
instruction is neither an HLIL assignment nor an MLIL set-var; an
instruction entering either assignment branch but failing its inner field
checks silently yields the empty slice result instead. -/
theorem c6_shape_error_iff_neither_branch (site : StructMemberSite) :
    tainted_slice_struct_member site = StructSliceOutcome.shapeValueError ↔
      (site.hlil_operation ≠ HighLevelILOperation.HLIL_ASSIGN ∧
        site.mlil_operation ≠ MediumLevelILOperation.MLIL_SET_VAR) := by
  unfold tainted_slice_struct_member
  split_ifs with h1 h2 h3 h4 h5 <;> simp_all

/-- Witness for the amended C6 at a site that is neither an HLIL assignment
nor an MLIL set-var (a call instruction). -/
theorem c6_shape_error_iff_neither_branch_witness :
    tainted_slice_struct_member c6w_site = StructSliceOutcome.shapeValueError ↔
      (c6w_site.hlil_operation ≠ HighLevelILOperation.HLIL_ASSIGN ∧
        c6w_site.mlil_operation ≠ MediumLevelILOperation.MLIL_SET_VAR) :=
  c6_shape_error_iff_neither_branch c6w_site

/-- Counterexample to claim C7 as stated: an indirect call — destination
text `rax`, which cannot be resolved to a known function — makes
`get_sliced_calls` raise `ValueError` from `int(str(loc.dest), 16)`
instead of being excluded without error. -/
theorem c7_indirect_call_raises :
    get_sliced_calls noneAtf c7_data mainName [] = Except.error valueErrorMsg := by
  rfl

/-- Claim C7, amended: a call whose destination text parses as a base-16
address but resolves to no known function is excluded from the returned
mapping without raising an error, and the remaining resolvable calls are
still processed; a destination text that does not parse (a genuinely
indirect call) instead raises `ValueError`. -/
theorem c7_unresolved_call_skipped (atf : Nat → Option FuncInfo)
    (data : List TaintedLOC) (fn : String) (pv : List TaintedValue)
    (hparse : ∀ tl ∈ data, tl.loc.operation = MediumLevelILOperation.MLIL_CALL →
      (parseHex tl.loc.dest_text).isSome = true) :
    ∃ entries, get_sliced_calls atf data fn pv = Except.ok (some entries) ∧
      ∀ e ∈ entries, ∃ tl ∈ data,
        tl.loc.operation = MediumLevelILOperation.MLIL_CALL ∧ e.1.2 = tl.addr ∧
        ∃ a f, parseHex tl.loc.dest_text = some a ∧ atf a = some f ∧
          e.2.1 = f.name := by
  obtain ⟨entries, hE, hprop⟩ := get_sliced_calls_go_ok atf fn pv data hparse
  refine ⟨entries, ?_, hprop⟩
  unfold get_sliced_calls
  rw [hE]
  rfl

/-- Witness for the amended C7: a slice with one call whose parsed address
resolves to nothing and one resolvable call returns normally. -/
theorem c7_unresolved_call_skipped_witness :
    ∃ entries, get_sliced_calls exAtf c7w_data mainName [] = Except.ok (some entries) ∧
      ∀ e ∈ entries, ∃ tl ∈ c7w_data,
        tl.loc.operation = MediumLevelILOperation.MLIL_CALL ∧ e.1.2 = tl.addr ∧
        ∃ a f, parseHex tl.loc.dest_text = some a ∧ exAtf a = some f ∧
          e.2.1 = f.name :=
  c7_unresolved_call_skipped exAtf c7w_data mainName [] (by decide)

/-- Claim C8.  The `FunctionParam` branch of `tainted_slice` always traces
`SliceType.Forward` regardless of the caller's `slice_type`, and the slice
start it picks is the address of the first listed parameter reference that
has an MLIL form (every earlier reference lacking one). -/
theorem c8_function_param_always_forward :
    (∀ slice_type, trace_type_used SlicingID.FunctionParam slice_type =
      SliceType.Forward) ∧
    (∀ refs a, functionParamSliceStart refs = some a →
      ∃ pre r post, refs = pre ++ r :: post ∧ r.address = a ∧ r.has_mlil = true ∧
        ∀ p ∈ pre, p.has_mlil = false) := by
  constructor
  · intro slice_type
    rfl
  · intro refs
    induction refs with
    | nil =>
      intro a h
      simp [functionParamSliceStart] at h
    | cons x t ih =>
      intro a h
      by_cases hx : x.has_mlil = true
      · have hax : x.address = a := by
          simp [functionParamSliceStart, List.filter_cons, hx] at h
          exact h
        exact ⟨[], x, t, rfl, hax, hx, by intro p hp; cases hp⟩
      · have ht : functionParamSliceStart t = some a := by
          simp only [functionParamSliceStart, List.filter_cons, hx,
            if_false] at h ⊢
          simpa using h
        obtain ⟨pre, r, post, h1, h2, h3, h4⟩ := ih a ht
        refine ⟨x :: pre, r, post, by rw [h1]; rfl, h2, h3, ?_⟩
        intro p hp
        rcases List.mem_cons.mp hp with rfl | hp'
        · exact Bool.not_eq_true _ ▸ by simpa using hx
        · exact h4 p hp'

/-- Witness for C8 at the concrete reference list `c8_refs` (first
reference lacking an MLIL form). -/
theorem c8_function_param_always_forward_witness :
    ∃ pre r post, c8_refs = pre ++ r :: post ∧ r.address = 32 ∧ r.has_mlil = true ∧
      ∀ p ∈ pre, p.has_mlil = false :=
  c8_function_param_always_forward.2 c8_refs 32 (by decide)

/-- Counterexample to claim C9 as stated: springing from the `continue` at
vfa.py 839, a call whose destination address resolves to no known function
skips the read-based propagation rule entirely — here `c9_instr` reads the
tainted variable 1 and writes variable 2, yet after the iteration
variable 2 is not tainted and the state is unchanged. -/
theorem c9_unresolved_call_skips_read_rule :
    (c9_instr.vars_read.any fun r => taintedIn exState.tainted_variables r) = true ∧
    processInstr 8 0 exSub noneAtf exState c9_instr = Except.ok exState ∧
    resultTaints (processInstr 8 0 exSub noneAtf exState c9_instr) 2 = false :=
  ⟨by decide, by rfl, by decide⟩

/-- Claim C9, amended: for every instruction except a call whose
destination fails to parse or resolve (operation kind otherwise
arbitrary), if any variable read is already tainted then every variable
written is tainted — with `Tainted` confidence — after the iteration. -/
theorem c9_read_rule_applies (rl sfa : Nat)
    (sub : FuncInfo → List String → InterprocTaintResult)
    (atf : Nat → Option FuncInfo) (st : TaintState) (instr : SSAInstr)
    (hcall : instr.operation = MediumLevelILOperation.MLIL_CALL_SSA →
      ∃ a f, parseHex instr.call_dest_text = some a ∧ atf a = some f)
    (hread : (instr.vars_read.any fun r => taintedIn st.tainted_variables r) = true) :
    ∀ w ∈ instr.vars_written,
      resultTaintsTainted (processInstr rl sfa sub atf st instr) w = true := by
  obtain ⟨adds, hadds⟩ := arm_additions_adds rl sfa sub atf st instr hcall
  intro w hw
  unfold processInstr
  rw [hadds]
  unfold resultTaintsTainted read_rule_suffix
  have hcond : (instr.vars_read.any fun r =>
      taintedIn (adds ++ st.tainted_variables) r) = true := by
    rw [List.any_eq_true] at hread ⊢
    obtain ⟨r, hr, hrt⟩ := hread
    refine ⟨r, hr, ?_⟩
    unfold taintedIn at hrt ⊢
    rw [List.any_eq_true] at hrt ⊢
    obtain ⟨tv, htv, he⟩ := hrt
    exact ⟨tv, List.mem_append_right _ htv, he⟩
  dsimp only
  rw [if_pos hcond]
  unfold taintedWithConf
  rw [List.any_eq_true]
  refine ⟨TaintedValue.taintedVar w TaintConfidence.Tainted instr.address, ?_, ?_⟩
  · exact List.mem_append_left _ (List.mem_map.mpr ⟨w, hw, rfl⟩)
  · simp [TaintedValue.var, TaintedValue.confidence_level]

/-- Witness for the amended C9: an instruction of an unrecognized operation
kind reading the tainted variable 1 and writing variable 2 leaves
variable 2 tainted. -/
theorem c9_read_rule_applies_witness :
    resultTaintsTainted (processInstr 8 0 exSub noneAtf exState c9w_instr) 2 = true :=
  c9_read_rule_applies 8 0 exSub noneAtf exState c9w_instr
    (fun h => absurd h (by decide)) (by decide) 2 (by decide)

/-- Counterexample to claim C10 as stated: `get_sliced_calls` does not
return a dictionary for every input list — on a slice holding one indirect
call (destination text `rbx`) it raises `ValueError` instead of
returning. -/
theorem c10_nonhex_dest_raises :
    get_sliced_calls noneAtf c10_data mainName [] = Except.error valueErrorMsg := by
  rfl

/-- Claim C10, amended: whenever `get_sliced_calls` returns normally the
result is a dictionary, possibly empty, and never `None` — so the
`if sliced_calls is None:` early return of `complete_slice` (vfa.py 530)
is never taken on a normal return. -/
theorem c10_get_sliced_calls_never_none (atf : Nat → Option FuncInfo)
    (data : List TaintedLOC) (fn : String) (pv : List TaintedValue) :
    complete_slice_none_check (get_sliced_calls atf data fn pv) = false := by
  unfold get_sliced_calls
  cases hgo : get_sliced_calls_go atf fn pv data <;> rfl

end BinGogglesVFA
